import Mathlib

/-!
Shallow embedding of `Draft/CalibrationTests/OpenCV_AppProgCookbook_modified/calibrate.py`
and proofs about it.  External OpenCV routines (feature detection, the
calibration solver, `projectPoints`, `Rodrigues`, the undistortion maps) are
taken as parameters of the embedded functions; the Python code around them is
translated line by line.  Pixel coordinates and accumulated errors are modelled
as exact rationals (floats are rationals), square roots as real numbers.
-/

/-- A 2D image point (x, y). -/
abbrev Pt2 : Type := ℚ × ℚ

/-- A 3D object point (x, y, z). -/
abbrev Pt3 : Type := ℚ × ℚ × ℚ

/-- The grid point `map(float, [i, j, 0])` of calibrate.py line 24. -/
def gridPoint (i j : ℕ) : Pt3 := ((i : ℚ), (j : ℚ), (0 : ℚ))

/-- Embeds `prepare_object_points` (calibrate.py lines 19-28):
`objp[:,:] = [[i, j, 0] for i in range(boardSize[1]) for j in range(boardSize[0])]`. -/
def prepare_object_points (boardSize : ℕ × ℕ) : List Pt3 :=
  (List.range boardSize.2).flatMap
    (fun i => (List.range boardSize.1).map (fun j => gridPoint i j))

/-- Indexing lemma for a flatMap of constant-length blocks generated from `List.range`. -/
theorem flatMap_range_map_getElem {α : Type} (r : ℕ) (f : ℕ → ℕ → α) :
    ∀ (l : List ℕ) (k j : ℕ), j < r →
      (l.flatMap (fun i => (List.range r).map (f i)))[k * r + j]? = l[k]?.map (fun i => f i j) := by
  intro l
  induction l with
  | nil => intro k j _; simp
  | cons a l ih =>
    intro k j hj
    rw [List.flatMap_cons]
    cases k with
    | zero =>
      have hlt : 0 * r + j < ((List.range r).map (f a)).length := by
        simpa using hj
      rw [List.getElem?_append_left hlt]
      simp [hj]
    | succ k =>
      have hge : ((List.range r).map (f a)).length ≤ (k + 1) * r + j := by
        simp [Nat.succ_mul]
        omega
      rw [List.getElem?_append_right hge]
      have harith : (k + 1) * r + j - ((List.range r).map (f a)).length = k * r + j := by
        simp [Nat.succ_mul]
        omega
      rw [harith, ih k j hj]
      simp

/-- Length lemma for a flatMap of constant-length blocks. -/
theorem flatMap_range_map_length {α : Type} (r : ℕ) (f : ℕ → ℕ → α) :
    ∀ l : List ℕ, (l.flatMap (fun i => (List.range r).map (f i))).length = l.length * r := by
  intro l
  induction l with
  | nil => simp
  | cons a l ih =>
    rw [List.flatMap_cons]
    simp only [List.length_append, List.length_map, List.length_range, ih, List.length_cons]
    ring

/-- C9: for positive board dimensions, `prepare_object_points` yields exactly
`rows * cols` points, all with `z = 0`, and the point stored at flat index
`i * rows + j` (outer loop over `i < cols`, inner over `j < rows`) is `(i, j, 0)`. -/
theorem prepare_object_points_spec (rows cols i j : ℕ)
    (hrows : 0 < rows) (hcols : 0 < cols) (hi : i < cols) (hj : j < rows) :
    (prepare_object_points (rows, cols)).length = rows * cols ∧
    (prepare_object_points (rows, cols)).all (fun p => p.2.2 == 0) = true ∧
    (prepare_object_points (rows, cols))[i * rows + j]? =
      some (gridPoint i j) := by
  refine ⟨?_, ?_, ?_⟩
  · rw [prepare_object_points, flatMap_range_map_length]
    simp [Nat.mul_comm]
  · rw [List.all_eq_true]
    intro p hp
    rw [prepare_object_points, List.mem_flatMap] at hp
    obtain ⟨a, _, hp⟩ := hp
    rw [List.mem_map] at hp
    obtain ⟨b, _, hp⟩ := hp
    subst hp
    rfl
  · rw [prepare_object_points, flatMap_range_map_getElem rows _ _ i j hj]
    simp [hi]

/-- Witness for C9 at the concrete board (rows, cols) = (2, 3), index (i, j) = (2, 1). -/
theorem prepare_object_points_spec_witness :
    (prepare_object_points (2, 3)).length = 2 * 3 ∧
    (prepare_object_points (2, 3)).all (fun p => p.2.2 == 0) = true ∧
    (prepare_object_points (2, 3))[2 * 2 + 1]? = some (gridPoint 2 1) :=
  prepare_object_points_spec 2 3 2 1 (by decide) (by decide) (by decide) (by decide)

/-- An image as OpenCV loads it: `shape = (height, width, channels)`;
only the dimensions matter for the calibration driver. -/
structure Img where
  h : ℕ
  w : ℕ
deriving DecidableEq

/-- The Python runtime error raised by `images[0]` on an empty list (line 36). -/
inductive PyErr where
  | indexError
deriving DecidableEq

/-- Embeds `calibrate_camera` (calibrate.py lines 31-60).  The external
collaborators are parameters: `detect` models `cvh.extractChessboardFeatures`
(returning corners when `ret == True`) and `calib` models `cv2.calibrateCamera`.
`images[0]` on an empty list raises `IndexError`; the image size is
`(test_image.shape[1], test_image.shape[0]) = (width, height)` of the first
image; every image with detected corners contributes `(objp, corners)`. -/
def calibrate_camera {α : Type} (detect : Img → Option (List Pt2))
    (calib : List (List Pt3) → List (List Pt2) → ℕ × ℕ → α)
    (images : List Img) (objp : List Pt3) :
    Except PyErr (α × List (List Pt3) × List (List Pt2) × (ℕ × ℕ)) :=
  match images with
  | [] => Except.error PyErr.indexError
  | img0 :: _ =>
    let imageSize := (img0.w, img0.h)
    let found := images.filterMap (fun im => (detect im).map (fun corners => (objp, corners)))
    let objectPoints := found.map Prod.fst
    let imagePoints := found.map Prod.snd
    Except.ok (calib objectPoints imagePoints imageSize, objectPoints, imagePoints, imageSize)

/-- C10: the calibration driver reads the image size only from the first image;
on the empty list it fails with `IndexError` before ever consulting the solver
(the result is the same error for solvers of different output types), and the
reported image size `(width, height)` of a non-empty list does not depend on the
images after the first. -/
theorem calibrate_camera_first_image_size {α β : Type} (detect : Img → Option (List Pt2))
    (calibA : List (List Pt3) → List (List Pt2) → ℕ × ℕ → α)
    (calibB : List (List Pt3) → List (List Pt2) → ℕ × ℕ → β)
    (objp : List Pt3) (img0 : Img) (rest rest2 : List Img) :
    calibrate_camera detect calibA [] objp = Except.error PyErr.indexError ∧
    calibrate_camera detect calibB [] objp = Except.error PyErr.indexError ∧
    (calibrate_camera detect calibA (img0 :: rest) objp).map (fun r => r.2.2.2) =
      Except.ok (img0.w, img0.h) ∧
    (calibrate_camera detect calibA (img0 :: rest) objp).map (fun r => r.2.2.2) =
      (calibrate_camera detect calibA (img0 :: rest2) objp).map (fun r => r.2.2.2) :=
  ⟨rfl, rfl, rfl, rfl⟩

/-- C6 counterexample: invoked on exactly one sample (one image whose corners are
detected), `calibrate_camera` does not fail at all: it returns the external
solver's output, so no `InsufficientSamples` failure exists in the code. -/
theorem calibrate_camera_one_sample_cex :
    calibrate_camera (fun _ => some [((0 : ℚ), (0 : ℚ))]) (fun _ _ _ => (0 : ℕ))
      [⟨4, 4⟩] [gridPoint 0 0] =
      Except.ok (0, [[gridPoint 0 0]], [[((0 : ℚ), (0 : ℚ))]], (4, 4)) := rfl

/-- C6 amended: `calibrate_camera` performs no sample-count validation; with a
single sample whose corners are detected it invokes the external solver on that
one observation and returns its result. -/
theorem calibrate_camera_no_sample_check {α : Type} (detect : Img → Option (List Pt2))
    (calib : List (List Pt3) → List (List Pt2) → ℕ × ℕ → α)
    (img : Img) (objp : List Pt3) (corners : List Pt2)
    (hdet : detect img = some corners) :
    calibrate_camera detect calib [img] objp =
      Except.ok (calib [objp] [corners] (img.w, img.h), [objp], [corners], (img.w, img.h)) := by
  simp [calibrate_camera, hdet]

/-- Witness for C6's amended theorem at a concrete detector and solver. -/
theorem calibrate_camera_no_sample_check_witness :
    calibrate_camera (fun _ => some [((1 : ℚ), (2 : ℚ))]) (fun o i s => (o.length, i.length, s))
      [(⟨3, 5⟩ : Img)] [gridPoint 1 1] =
      Except.ok ((1, 1, (5, 3)), [[gridPoint 1 1]], [[((1 : ℚ), (2 : ℚ))]], (5, 3)) :=
  calibrate_camera_no_sample_check (fun _ => some [((1 : ℚ), (2 : ℚ))])
    (fun o i s => (o.length, i.length, s)) ⟨3, 5⟩ [gridPoint 1 1] [((1 : ℚ), (2 : ℚ))] rfl

/-- How `main` (calibrate.py lines 231-291) consumes one parameter string typed
at a prompt: either the default is kept (empty input), or the string is spliced
into a statement handed to `exec` (dynamic code execution), kept as a plain
string value, or parsed as an integer via `int(...)`. -/
inductive ParamAction where
  | execCode (code : String)
  | setStr (value : String)
  | parseInt (raw : String)
  | keepDefault
deriving DecidableEq

/-- Embeds lines 236-238: `boardSize_inp = raw_input(...); if boardSize_inp:
exec "boardSize = " + boardSize_inp`. -/
def handle_boardSize_input (inp : String) : ParamAction :=
  if inp = "" then ParamAction.keepDefault
  else ParamAction.execCode ("boardSize = " ++ inp)

/-- Embeds lines 244-246: the chessboard filename pattern is kept as a plain string. -/
def handle_filename_chessboards_input (inp : String) : ParamAction :=
  if inp = "" then ParamAction.keepDefault else ParamAction.setStr inp

/-- Embeds lines 259-261: the distorted-image filename is kept as a plain string. -/
def handle_filename_distorted_input (inp : String) : ParamAction :=
  if inp = "" then ParamAction.keepDefault else ParamAction.setStr inp

/-- Embeds lines 283-285: `device_id = int(device_id_inp)`. -/
def handle_device_id_input (inp : String) : ParamAction :=
  if inp = "" then ParamAction.keepDefault else ParamAction.parseInt inp

/-- Embeds lines 286-288: the extrinsics filename base is kept as a plain string. -/
def handle_filename_extrinsics_input (inp : String) : ParamAction :=
  if inp = "" then ParamAction.keepDefault else ParamAction.setStr inp

/-- True exactly for the action that evaluates user input as code. -/
def is_code_execution : ParamAction → Bool
  | ParamAction.execCode _ => true
  | _ => false

/-- C7 counterexample: the board-size string typed at the CLI is spliced into a
statement and evaluated as arbitrary code (`exec`, calibrate.py line 238). -/
theorem boardSize_input_is_code_execution_cex :
    handle_boardSize_input "(4, 3)" = ParamAction.execCode "boardSize = (4, 3)" ∧
    is_code_execution (handle_boardSize_input "(4, 3)") = true := ⟨rfl, rfl⟩

/-- C7 amended: every non-empty board-size input is evaluated as code via
`exec`, while the filename and device-selector inputs are consumed as plain
string or integer-parsed configuration values, never as code. -/
theorem cli_param_consumption (inp : String) (hne : inp ≠ "") :
    handle_boardSize_input inp = ParamAction.execCode ("boardSize = " ++ inp) ∧
    handle_boardSize_input "" = ParamAction.keepDefault ∧
    is_code_execution (handle_filename_chessboards_input inp) = false ∧
    is_code_execution (handle_filename_distorted_input inp) = false ∧
    is_code_execution (handle_device_id_input inp) = false ∧
    is_code_execution (handle_filename_extrinsics_input inp) = false ∧
    is_code_execution (handle_boardSize_input "") = false := by
  refine ⟨?_, rfl, ?_, ?_, ?_, ?_, rfl⟩ <;>
    simp [handle_boardSize_input, handle_filename_chessboards_input,
      handle_filename_distorted_input, handle_device_id_input,
      handle_filename_extrinsics_input, is_code_execution, hne]

/-- Witness for C7's amended theorem at the concrete input string. -/
theorem cli_param_consumption_witness :
    handle_boardSize_input "(4, 3)" = ParamAction.execCode ("boardSize = " ++ "(4, 3)") ∧
    handle_boardSize_input "" = ParamAction.keepDefault ∧
    is_code_execution (handle_filename_chessboards_input "(4, 3)") = false ∧
    is_code_execution (handle_filename_distorted_input "(4, 3)") = false ∧
    is_code_execution (handle_device_id_input "(4, 3)") = false ∧
    is_code_execution (handle_filename_extrinsics_input "(4, 3)") = false ∧
    is_code_execution (handle_boardSize_input "") = false :=
  cli_param_consumption "(4, 3)" (by decide)

/-- The region of interest returned by `cv2.getOptimalNewCameraMatrix`:
`x, y, w, h = roi` (line 79). -/
structure ROI where
  x : ℕ
  y : ℕ
  w : ℕ
  h : ℕ
deriving DecidableEq

/-- A greyscale image as a list of rows of pixel values. -/
abbrev RasterImage : Type := List (List ℚ)

/-- Embeds the crop `img_undistorted[y:y+h, x:x+w]` of calibrate.py line 80
(Python slice semantics for non-negative bounds, clamping at the ends). -/
def crop_to_roi (img : RasterImage) (roi : ROI) : RasterImage :=
  ((img.drop roi.y).take roi.h).map (fun row => (row.drop roi.x).take roi.w)

/-- Embeds `undistort_image` (calibrate.py lines 63-82) with a general retention
parameter `alpha` in place of the literal argument of line 67; written to the
spec's words for the Undistorter so that the source function can be compared
against it. -/
def undistort_with_alpha {CamMat Dist MapPair : Type}
    (getOptimalNewCameraMatrix : CamMat → Dist → ℕ × ℕ → ℚ → CamMat × ROI)
    (initUndistortRectifyMap : CamMat → Dist → CamMat → ℕ × ℕ → MapPair)
    (remap : RasterImage → MapPair → RasterImage)
    (img : RasterImage) (cameraMatrix : CamMat) (distCoeffs : Dist)
    (imageSize : ℕ × ℕ) (alpha : ℚ) : RasterImage × ROI :=
  let refined := getOptimalNewCameraMatrix cameraMatrix distCoeffs imageSize alpha
  let cameraMatrix_new := refined.1
  let roi := refined.2
  let maps := initUndistortRectifyMap cameraMatrix distCoeffs cameraMatrix_new imageSize
  let img_undistorted := remap img maps
  (crop_to_roi img_undistorted roi, roi)

/-- Embeds `undistort_image` (calibrate.py lines 63-82): refine the camera
matrix and ROI with retention value `1` ("all source image pixels retained in
undistorted image", line 67), build the remap, apply it, and crop to the ROI. -/
def undistort_image {CamMat Dist MapPair : Type}
    (getOptimalNewCameraMatrix : CamMat → Dist → ℕ × ℕ → ℚ → CamMat × ROI)
    (initUndistortRectifyMap : CamMat → Dist → CamMat → ℕ × ℕ → MapPair)
    (remap : RasterImage → MapPair → RasterImage)
    (img : RasterImage) (cameraMatrix : CamMat) (distCoeffs : Dist)
    (imageSize : ℕ × ℕ) : RasterImage × ROI :=
  let refined := getOptimalNewCameraMatrix cameraMatrix distCoeffs imageSize 1
  let cameraMatrix_new := refined.1
  let roi := refined.2
  let maps := initUndistortRectifyMap cameraMatrix distCoeffs cameraMatrix_new imageSize
  let img_undistorted := remap img maps
  (crop_to_roi img_undistorted roi, roi)

/-- C8: `undistort_image` is exactly the alpha-parameterized Undistorter applied
at the documented default retention value `alpha = 1`; the ROI it returns is the
one the refinement step computed for `alpha = 1`, the returned image is the
corrected image cropped exactly to that ROI, and the crop has the ROI's height
(clamped to the available rows). -/
theorem undistort_image_alpha_one {CamMat Dist MapPair : Type}
    (gom : CamMat → Dist → ℕ × ℕ → ℚ → CamMat × ROI)
    (imap : CamMat → Dist → CamMat → ℕ × ℕ → MapPair)
    (remap : RasterImage → MapPair → RasterImage)
    (img : RasterImage) (cameraMatrix : CamMat) (distCoeffs : Dist) (imageSize : ℕ × ℕ) :
    undistort_image gom imap remap img cameraMatrix distCoeffs imageSize =
      undistort_with_alpha gom imap remap img cameraMatrix distCoeffs imageSize 1 ∧
    (undistort_image gom imap remap img cameraMatrix distCoeffs imageSize).2 =
      (gom cameraMatrix distCoeffs imageSize 1).2 ∧
    (undistort_image gom imap remap img cameraMatrix distCoeffs imageSize).1 =
      crop_to_roi
        (remap img (imap cameraMatrix distCoeffs (gom cameraMatrix distCoeffs imageSize 1).1
          imageSize))
        (gom cameraMatrix distCoeffs imageSize 1).2 ∧
    (undistort_image gom imap remap img cameraMatrix distCoeffs imageSize).1.length =
      min (gom cameraMatrix distCoeffs imageSize 1).2.h
        ((remap img (imap cameraMatrix distCoeffs (gom cameraMatrix distCoeffs imageSize 1).1
          imageSize)).length - (gom cameraMatrix distCoeffs imageSize 1).2.y) := by
  refine ⟨rfl, rfl, rfl, ?_⟩
  simp [undistort_image, crop_to_roi]

/-- A 3-vector of rational coordinates (an OpenCV `(3, 1)` float array). -/
abbrev V3 : Type := Fin 3 → ℚ

/-- A 3x3 rotation matrix as produced by `cv2.Rodrigues`. -/
abbrev M3 : Type := Matrix (Fin 3) (Fin 3) ℚ

/-- Embeds the pose inversion of calibrate.py lines 156-158, with the external
`cv2.Rodrigues` passed as `rod`:
`rvec *= -1; tvec = cv2.Rodrigues(rvec)[0].dot(tvec); tvec *= -1`. -/
def invert_pose (rod : V3 → M3) (rvec tvec : V3) : V3 × V3 :=
  let rvec1 := -rvec
  let tvec1 := (rod rvec1).mulVec tvec
  let tvec2 := -tvec1
  (rvec1, tvec2)

/-- The relative-pose values of calibrate.py lines 160-162, as a function of the
world-frame pose and the stored keyframe pose only (`dr` is the external
`qwts.delta_rvec`): `rvec_rel = -qwts.delta_rvec(-rvec, -rvec_prev);
tvec_rel = tvec - tvec_prev`. -/
def frame_outputs (dr : V3 → V3 → V3) (pose prev : V3 × V3) : V3 × V3 :=
  (-(dr (-pose.1) (-prev.1)), pose.2 - prev.2)

/-- The axis-system object points of calibrate.py lines 121-124. -/
def axis_system_objp : List Pt3 :=
  [((0 : ℚ), (0 : ℚ), (0 : ℚ)), ((4 : ℚ), (0 : ℚ), (0 : ℚ)),
   ((0 : ℚ), (4 : ℚ), (0 : ℚ)), ((0 : ℚ), (0 : ℚ), (4 : ℚ))]

/-- The axis-system overlay pixels of calibrate.py lines 147-151: the axis
object points projected through the external `cv2.projectPoints` (`proj`) at a
given pose and rounded to the nearest integer. -/
def axis_overlay {CM DC : Type} (proj : List Pt3 → V3 → V3 → CM → DC → List Pt2)
    (cm : CM) (dc : DC) (rvec tvec : V3) : List (ℤ × ℤ) :=
  (proj axis_system_objp rvec tvec cm dc).map (fun p => (round p.1, round p.2))

/-- Embeds the per-frame pose computation of calibrate.py lines 147-162: first
the axis-system overlay is projected from the raw solver pose and rounded
(lines 147-151), then the raw solver output `(rvec, tvec)` is inverted in place
(lines 156-158), and the relative pose is computed from the inverted values and
the stored keyframe pose (lines 160-162). -/
def process_frame {CM DC : Type} (proj : List Pt3 → V3 → V3 → CM → DC → List Pt2)
    (rod : V3 → M3) (dr : V3 → V3 → V3) (cm : CM) (dc : DC)
    (rvec tvec : V3) (prev : V3 × V3) :
    List (ℤ × ℤ) × (V3 × V3) × (V3 × V3) :=
  let overlay := (proj axis_system_objp rvec tvec cm dc).map (fun p => (round p.1, round p.2))
  let rvec1 := -rvec
  let tvec1 := -((rod rvec1).mulVec tvec)
  let rvec_rel := -(dr (-rvec1) (-prev.1))
  let tvec_rel := tvec1 - prev.2
  (overlay, (rvec1, tvec1), (rvec_rel, tvec_rel))

/-- C1 counterexample: with a projection function that reveals the pose it is
given, the axis overlay the per-frame computation displays at the raw solver
pose `(rvec, tvec) = ((1,0,0), (2,0,0))` is `[(1, 2)]` — the raw pose's
projection — and differs from `[(-1, -2)]`, the projection of the inverted
world-frame pose: a displayed value is computed from the raw solver output. -/
theorem axis_display_raw_pose_cex :
    (process_frame (fun _ r t _ _ => [(r 0, t 0)]) (fun _ => (1 : M3)) (fun a b => a - b)
        () () ![1, 0, 0] ![2, 0, 0] (0, 0)).1 = [((1 : ℤ), (2 : ℤ))] ∧
    axis_overlay (fun _ r t _ _ => [(r 0, t 0)]) () ()
        (invert_pose (fun _ => (1 : M3)) ![1, 0, 0] ![2, 0, 0]).1
        (invert_pose (fun _ => (1 : M3)) ![1, 0, 0] ![2, 0, 0]).2 =
      [((-1 : ℤ), (-2 : ℤ))] ∧
    ([((1 : ℤ), (2 : ℤ))] : List (ℤ × ℤ)) ≠ [((-1 : ℤ), (-2 : ℤ))] := by
  refine ⟨?_, ?_, by decide⟩
  · show ((fun _ r t _ _ => [(r 0, t 0)]) axis_system_objp ![(1 : ℚ), 0, 0] ![(2 : ℚ), 0, 0]
        () ()).map (fun p => (round p.1, round p.2)) = [((1 : ℤ), (2 : ℤ))]
    norm_num
  · show ((fun _ r t _ _ => [(r 0, t 0)]) axis_system_objp
        (-![(1 : ℚ), 0, 0]) (-((1 : M3).mulVec ![(2 : ℚ), 0, 0]))
        () ()).map (fun p => (round p.1, round p.2)) = [((-1 : ℤ), (-2 : ℤ))]
    have h1 : round ((-1 : ℚ)) = (-1 : ℤ) := by
      rw [show ((-1 : ℚ)) = (((-1 : ℤ) : ℚ)) by norm_num]
      exact round_intCast (-1)
    have h2 : round ((-2 : ℚ)) = (-2 : ℤ) := by
      rw [show ((-2 : ℚ)) = (((-2 : ℤ) : ℚ)) by norm_num]
      exact round_intCast (-2)
    simp [Matrix.one_mulVec, h1, h2]

/-- C1 amended: whenever `Rinv` is the matrix `Rodrigues` assigns to the negated
rotation vector and it inverts the solver's rotation matrix, the reported
world-frame pose is `(-rvec, -(Rinv . tvec))` — axis-angle vector negated,
translation negated and rotated by the inverse rotation; the relative-pose
values and the textual pose display are functions of that inverted world-frame
pose and the keyframe pose, while the axis-system overlay is projected from the
raw solver pose, before the inversion. -/
theorem pose_inversion_spec {CM DC : Type} (proj : List Pt3 → V3 → V3 → CM → DC → List Pt2)
    (rod : V3 → M3) (dr : V3 → V3 → V3) (cm : CM) (dc : DC)
    (rvec tvec : V3) (prev : V3 × V3) (Rinv : M3)
    (hR : Rinv = rod (-rvec)) (hinv : Rinv * rod rvec = 1) :
    invert_pose rod rvec tvec = (-rvec, -(Rinv.mulVec tvec)) ∧
    process_frame proj rod dr cm dc rvec tvec prev =
      (axis_overlay proj cm dc rvec tvec,
       invert_pose rod rvec tvec,
       frame_outputs dr (invert_pose rod rvec tvec) prev) := by
  subst hR
  exact ⟨rfl, rfl⟩

/-- Witness for C1 with the identity Rodrigues map (its own inverse) at a
concrete solver pose and keyframe pose. -/
theorem pose_inversion_spec_witness :
    invert_pose (fun _ => (1 : M3)) ![1, 2, 3] ![4, 5, 6] =
      (-![1, 2, 3], -((1 : M3).mulVec ![4, 5, 6])) ∧
    process_frame (fun _ r t _ _ => [(r 0, t 0)]) (fun _ => (1 : M3)) (fun a b => a - b)
        () () ![1, 2, 3] ![4, 5, 6] (![0, 1, 0], ![0, 0, 2]) =
      (axis_overlay (fun _ r t _ _ => [(r 0, t 0)]) () () ![1, 2, 3] ![4, 5, 6],
        invert_pose (fun _ => (1 : M3)) ![1, 2, 3] ![4, 5, 6],
        frame_outputs (fun a b => a - b)
          (invert_pose (fun _ => (1 : M3)) ![1, 2, 3] ![4, 5, 6]) (![0, 1, 0], ![0, 0, 2])) :=
  pose_inversion_spec (fun _ r t _ _ => [(r 0, t 0)]) (fun _ => (1 : M3)) (fun a b => a - b)
    () () ![1, 2, 3] ![4, 5, 6] (![0, 1, 0], ![0, 0, 2]) 1 rfl (one_mul 1)

/-- The mutable state of the realtime loop (calibrate.py lines 130-134):
the keyframe counter and the stored previous keyframe pose. -/
structure TrackState where
  imageNr : ℕ
  rvec_prev : V3
  tvec_prev : V3
deriving DecidableEq

/-- Embeds lines 130-133: `imageNr = 0; rvec_prev = np.zeros((3, 1));
tvec_prev = np.zeros((3, 1))`. -/
def init_state : TrackState := { imageNr := 0, rvec_prev := 0, tvec_prev := 0 }

/-- One iteration's inputs for the realtime loop: whether valid features were
found and the PnP solve succeeded (`ret`), the raw solver pose for this frame,
and the key pressed during this iteration (`cv2.waitKey(1) & 0xFF`). -/
structure FrameInput where
  found : Bool
  rvec_raw : V3
  tvec_raw : V3
  key : ℕ

/-- Embeds one iteration of the realtime loop (calibrate.py lines 138-209):
when features are found the pose is solved, the axis overlay projected, the pose
inverted to the world frame and the relative pose computed (lines 143-162), and
the overlay and pose data are drawn (lines 168-190) — all without touching the
stored state; the stored previous pose and keyframe counter change only when
SPACE (key 32) is pressed while `ret` holds (lines 196-209). -/
def track_step {CM DC : Type} (proj : List Pt3 → V3 → V3 → CM → DC → List Pt2)
    (rod : V3 → M3) (dr : V3 → V3 → V3) (cm : CM) (dc : DC)
    (s : TrackState) (inp : FrameInput) :
    TrackState × Option (List (ℤ × ℤ) × (V3 × V3) × (V3 × V3)) :=
  if inp.found then
    let pf := process_frame proj rod dr cm dc inp.rvec_raw inp.tvec_raw
      (s.rvec_prev, s.tvec_prev)
    let s2 :=
      if inp.key = 32 then
        { imageNr := s.imageNr + 1, rvec_prev := pf.2.1.1, tvec_prev := pf.2.1.2 }
      else s
    (s2, some pf)
  else
    (s, none)

/-- C5: the stored previous pose starts as the identity pose (zero rotation
vector, zero translation), and a loop iteration leaves the stored state
unchanged — the per-frame pose and display computation mutates nothing — unless
SPACE is pressed on a frame with a valid solve, in which case (and only then)
the previous pose becomes the current world-frame pose. -/
theorem tracker_state_spec {CM DC : Type} (proj : List Pt3 → V3 → V3 → CM → DC → List Pt2)
    (rod : V3 → M3) (dr : V3 → V3 → V3) (cm : CM) (dc : DC)
    (s : TrackState) (inp : FrameInput) :
    init_state.rvec_prev = 0 ∧ init_state.tvec_prev = 0 ∧ init_state.imageNr = 0 ∧
    (track_step proj rod dr cm dc s inp).1 =
      (if inp.found = true ∧ inp.key = 32 then
        { imageNr := s.imageNr + 1,
          rvec_prev :=
            (process_frame proj rod dr cm dc inp.rvec_raw inp.tvec_raw
              (s.rvec_prev, s.tvec_prev)).2.1.1,
          tvec_prev :=
            (process_frame proj rod dr cm dc inp.rvec_raw inp.tvec_raw
              (s.rvec_prev, s.tvec_prev)).2.1.2 }
      else s) := by
  refine ⟨rfl, rfl, rfl, ?_⟩
  rcases inp with ⟨found, rv, tv, key⟩
  cases found with
  | false => simp [track_step]
  | true =>
    by_cases hk : key = 32 <;> simp [track_step, hk]

/-- Per-point signed reprojection error `imgp_reproj.reshape(-1, 2) - imagePoints[i]`
(calibrate.py line 93). -/
def sample_errors (predicted observed : List Pt2) : List Pt2 :=
  List.zipWith (fun p o => (p.1 - o.1, p.2 - o.2)) predicted observed

/-- Per-axis sum of absolute errors, `abs(error).sum(axis=0)` (line 94). -/
def abs_sum_axis (errs : List Pt2) : ℚ × ℚ :=
  errs.foldr (fun e acc => (|e.1| + acc.1, |e.2| + acc.2)) (0, 0)

/-- Per-axis sum of squared errors, `(error**2).sum(axis=0)` (line 95). -/
def sq_sum_axis (errs : List Pt2) : ℚ × ℚ :=
  errs.foldr (fun e acc => (e.1 ^ 2 + acc.1, e.2 ^ 2 + acc.2)) (0, 0)

/-- Embeds the accumulation loop of `reprojection_error` (calibrate.py lines
86-95), with the external `cv2.projectPoints` passed as `project`: each sample's
per-axis absolute and squared error sums are divided by `np.prod(boardSize) = N`
and accumulated.  The Python loop indexes all four lists by `i` over
`range(len(imagePoints))`; the lockstep recursion is identical on the
equal-length lists the pipeline produces. -/
def reproj_loop {Rv Tv CM DC : Type} (project : List Pt3 → Rv → Tv → CM → DC → List Pt2)
    (cm : CM) (dc : DC) :
    List Rv → List Tv → List (List Pt3) → List (List Pt2) → ℕ → (ℚ × ℚ) × (ℚ × ℚ)
  | r :: rs, t :: ts, op :: ops, ip :: ips, N =>
    let acc := reproj_loop project cm dc rs ts ops ips N
    let err := sample_errors (project op r t cm dc) ip
    let aver := abs_sum_axis err
    let sqr := sq_sum_axis err
    ((acc.1.1 + aver.1 / N, acc.1.2 + aver.2 / N), (acc.2.1 + sqr.1 / N, acc.2.2 + sqr.2 / N))
  | _, _, _, _, _ => ((0, 0), (0, 0))

/-- Embeds `reprojection_error` (calibrate.py lines 85-100): after the loop,
`mean_error = cv2.norm(mean_error / n_images)` — the scalar L2 norm of the
per-axis mean vector — and `square_error = np.sqrt(square_error.sum() / n_images)`. -/
noncomputable def reprojection_error {Rv Tv CM DC : Type}
    (project : List Pt3 → Rv → Tv → CM → DC → List Pt2) (cm : CM) (dc : DC)
    (rvecs : List Rv) (tvecs : List Tv)
    (objectPoints : List (List Pt3)) (imagePoints : List (List Pt2))
    (boardSize : ℕ × ℕ) : ℝ × ℝ :=
  let N := boardSize.1 * boardSize.2
  let n_images := imagePoints.length
  let acc := reproj_loop project cm dc rvecs tvecs objectPoints imagePoints N
  let mean_error := (acc.1.1 / n_images, acc.1.2 / n_images)
  (Real.sqrt ((mean_error.1 : ℝ) ^ 2 + (mean_error.2 : ℝ) ^ 2),
   Real.sqrt (((acc.2.1 + acc.2.2) / n_images : ℚ) : ℝ))

/-- Componentwise sum of a list of pairs. -/
def sumPairs (l : List (ℚ × ℚ)) : ℚ × ℚ :=
  l.foldr (fun a b => (a.1 + b.1, a.2 + b.2)) (0, 0)

/-- Sum of a list of rationals. -/
def sumQ (l : List ℚ) : ℚ := l.foldr (· + ·) 0

/-- Per-sample error sums, each normalized by that sample's own point count:
the normalize-then-sum reading of §4.3 of the spec, for comparison with the
source's accumulation loop. -/
def spec_normalized_sums {Rv Tv CM DC : Type}
    (project : List Pt3 → Rv → Tv → CM → DC → List Pt2) (cm : CM) (dc : DC) :
    List Rv → List Tv → List (List Pt3) → List (List Pt2) → List ((ℚ × ℚ) × (ℚ × ℚ))
  | r :: rs, t :: ts, op :: ops, ip :: ips =>
    let err := sample_errors (project op r t cm dc) ip
    let cnt : ℚ := (op.length : ℚ)
    (((abs_sum_axis err).1 / cnt, (abs_sum_axis err).2 / cnt),
     ((sq_sum_axis err).1 / cnt, (sq_sum_axis err).2 / cnt)) ::
      spec_normalized_sums project cm dc rs ts ops ips
  | _, _, _, _ => []

/-- The accumulation loop computes exactly the normalize-then-sum aggregate:
each sample's sums divided by that sample's point count, then summed. -/
theorem reproj_loop_eq_normalized {Rv Tv CM DC : Type}
    (project : List Pt3 → Rv → Tv → CM → DC → List Pt2) (cm : CM) (dc : DC) (N : ℕ) :
    ∀ (rs : List Rv) (ts : List Tv) (ops : List (List Pt3)) (ips : List (List Pt2)),
      (∀ op ∈ ops, op.length = N) →
      reproj_loop project cm dc rs ts ops ips N =
        (sumPairs ((spec_normalized_sums project cm dc rs ts ops ips).map Prod.fst),
         sumPairs ((spec_normalized_sums project cm dc rs ts ops ips).map Prod.snd)) := by
  intro rs
  induction rs with
  | nil =>
    intro ts ops ips _
    cases ts <;> cases ops <;> cases ips <;> rfl
  | cons r rs ih =>
    intro ts ops ips hcount
    cases ts with
    | nil => cases ops <;> cases ips <;> rfl
    | cons t ts =>
      cases ops with
      | nil => cases ips <;> rfl
      | cons op ops =>
        cases ips with
        | nil => rfl
        | cons ip ips =>
          have hop : op.length = N := hcount op (List.mem_cons_self op ops)
          have ihe := ih ts ops ips (fun o ho => hcount o (List.mem_cons_of_mem op ho))
          rw [reproj_loop, spec_normalized_sums, ihe]
          simp only [List.map_cons, sumPairs, List.foldr_cons, hop]
          refine Prod.ext (Prod.ext ?_ ?_) (Prod.ext ?_ ?_) <;>
            simp [sumPairs] <;> ring

/-- Summing both axis components of the squared-error pairs commutes with the
componentwise sum. -/
theorem sumPairs_snd_components (l : List ((ℚ × ℚ) × (ℚ × ℚ))) :
    (sumPairs (l.map Prod.snd)).1 + (sumPairs (l.map Prod.snd)).2 =
      sumQ (l.map (fun e => e.2.1 + e.2.2)) := by
  induction l with
  | nil => simp [sumPairs, sumQ]
  | cons a l ih =>
    simp only [List.map_cons, sumPairs, sumQ, List.foldr_cons] at ih ⊢
    rw [← ih]
    ring

/-- C3: when every sample carries `N = rows * cols` points (as every sample the
pipeline builds does), the accumulators equal the normalize-then-sum aggregate —
each sample's absolute and squared per-axis sums divided by that sample's own
point count before being summed across samples — and the returned RMS error is
the square root of the mean over samples of the per-sample normalized squared
sums. -/
theorem reprojection_normalize_then_sum {Rv Tv CM DC : Type}
    (project : List Pt3 → Rv → Tv → CM → DC → List Pt2) (cm : CM) (dc : DC)
    (rvecs : List Rv) (tvecs : List Tv)
    (objectPoints : List (List Pt3)) (imagePoints : List (List Pt2))
    (boardSize : ℕ × ℕ)
    (hcount : ∀ op ∈ objectPoints, op.length = boardSize.1 * boardSize.2) :
    reproj_loop project cm dc rvecs tvecs objectPoints imagePoints
        (boardSize.1 * boardSize.2) =
      (sumPairs ((spec_normalized_sums project cm dc rvecs tvecs objectPoints
        imagePoints).map Prod.fst),
       sumPairs ((spec_normalized_sums project cm dc rvecs tvecs objectPoints
        imagePoints).map Prod.snd)) ∧
    (reprojection_error project cm dc rvecs tvecs objectPoints imagePoints boardSize).2 =
      Real.sqrt (((sumQ ((spec_normalized_sums project cm dc rvecs tvecs objectPoints
        imagePoints).map (fun e => e.2.1 + e.2.2)) / imagePoints.length : ℚ) : ℝ)) := by
  have h := reproj_loop_eq_normalized project cm dc (boardSize.1 * boardSize.2)
    rvecs tvecs objectPoints imagePoints hcount
  refine ⟨h, ?_⟩
  show Real.sqrt _ = _
  rw [h]
  rw [← sumPairs_snd_components]

/-- Witness for C3 at a concrete one-sample input on a 1x1 board. -/
theorem reprojection_normalize_then_sum_witness :
    reproj_loop (fun _ _ _ _ _ => [((3 : ℚ), (4 : ℚ))]) () () [()] [()]
        [[gridPoint 0 0]] [[((0 : ℚ), (0 : ℚ))]] (1 * 1) =
      (sumPairs ((spec_normalized_sums (fun _ _ _ _ _ => [((3 : ℚ), (4 : ℚ))]) () () [()] [()]
        [[gridPoint 0 0]] [[((0 : ℚ), (0 : ℚ))]]).map Prod.fst),
       sumPairs ((spec_normalized_sums (fun _ _ _ _ _ => [((3 : ℚ), (4 : ℚ))]) () () [()] [()]
        [[gridPoint 0 0]] [[((0 : ℚ), (0 : ℚ))]]).map Prod.snd)) ∧
    (reprojection_error (fun _ _ _ _ _ => [((3 : ℚ), (4 : ℚ))]) () () [()] [()]
        [[gridPoint 0 0]] [[((0 : ℚ), (0 : ℚ))]] (1, 1)).2 =
      Real.sqrt (((sumQ ((spec_normalized_sums (fun _ _ _ _ _ => [((3 : ℚ), (4 : ℚ))]) () () [()]
        [()] [[gridPoint 0 0]] [[((0 : ℚ), (0 : ℚ))]]).map (fun e => e.2.1 + e.2.2)) /
          ([[((0 : ℚ), (0 : ℚ))]] : List (List Pt2)).length : ℚ) : ℝ)) :=
  reprojection_normalize_then_sum (fun _ _ _ _ _ => [((3 : ℚ), (4 : ℚ))]) () () [()] [()]
    [[gridPoint 0 0]] [[((0 : ℚ), (0 : ℚ))]] (1, 1) (by decide)

/-- C2 amended: `reprojection_error` returns a pair of two scalars: the
Euclidean (L2) norm of the 2-component per-axis mean-absolute-error vector (the
average over samples of the per-sample point-count-normalized absolute sums),
and the scalar RMS error — the per-axis mean-absolute vector itself is not
returned. -/
theorem reprojection_error_output {Rv Tv CM DC : Type}
    (project : List Pt3 → Rv → Tv → CM → DC → List Pt2) (cm : CM) (dc : DC)
    (rvecs : List Rv) (tvecs : List Tv)
    (objectPoints : List (List Pt3)) (imagePoints : List (List Pt2))
    (boardSize : ℕ × ℕ) :
    reprojection_error project cm dc rvecs tvecs objectPoints imagePoints boardSize =
      (Real.sqrt
        ((((reproj_loop project cm dc rvecs tvecs objectPoints imagePoints
            (boardSize.1 * boardSize.2)).1.1 / imagePoints.length : ℚ) : ℝ) ^ 2 +
         (((reproj_loop project cm dc rvecs tvecs objectPoints imagePoints
            (boardSize.1 * boardSize.2)).1.2 / imagePoints.length : ℚ) : ℝ) ^ 2),
       Real.sqrt
        ((((reproj_loop project cm dc rvecs tvecs objectPoints imagePoints
            (boardSize.1 * boardSize.2)).2.1 +
           (reproj_loop project cm dc rvecs tvecs objectPoints imagePoints
            (boardSize.1 * boardSize.2)).2.2) / imagePoints.length : ℚ) : ℝ)) := rfl

/-- C2 counterexample: on a one-sample input whose per-axis mean-absolute-error
vector is `(3, 4)`, the evaluator's first output is the single scalar `5` (the
L2 norm of that vector), equal to neither component — the mean-absolute error is
not returned as a 2-component per-axis vector. -/
theorem reprojection_error_scalar_cex :
    (reproj_loop (fun _ _ _ _ _ => [((3 : ℚ), (4 : ℚ))]) () () [()] [()]
        [[gridPoint 0 0]] [[((0 : ℚ), (0 : ℚ))]] 1).1 = ((3 : ℚ), (4 : ℚ)) ∧
    (reprojection_error (fun _ _ _ _ _ => [((3 : ℚ), (4 : ℚ))]) () () [()] [()]
        [[gridPoint 0 0]] [[((0 : ℚ), (0 : ℚ))]] (1, 1)).1 = 5 ∧
    (5 : ℝ) ≠ 3 ∧ (5 : ℝ) ≠ 4 := by
  have h1 : (reproj_loop (fun _ _ _ _ _ => [((3 : ℚ), (4 : ℚ))]) () () [()] [()]
      [[gridPoint 0 0]] [[((0 : ℚ), (0 : ℚ))]] ((1 : ℕ) * 1)).1.1 = 3 := by
    norm_num [reproj_loop, sample_errors, abs_sum_axis, sq_sum_axis, gridPoint]
  have h2 : (reproj_loop (fun _ _ _ _ _ => [((3 : ℚ), (4 : ℚ))]) () () [()] [()]
      [[gridPoint 0 0]] [[((0 : ℚ), (0 : ℚ))]] ((1 : ℕ) * 1)).1.2 = 4 := by
    norm_num [reproj_loop, sample_errors, abs_sum_axis, sq_sum_axis, gridPoint]
  refine ⟨Prod.ext (by simpa using h1) (by simpa using h2), ?_, by norm_num, by norm_num⟩
  show Real.sqrt _ = 5
  rw [show ((5 : ℝ)) = Real.sqrt 25 by
    rw [show ((25 : ℝ)) = 5 ^ 2 by norm_num, Real.sqrt_sq]; norm_num]
  congr 1
  rw [h1, h2]
  norm_num

/-- A real 3-vector, for the rotation algebra of the relative-pose computation. -/
abbrev V3R : Type := Fin 3 → ℝ

/-- A quaternion `w + x i + y j + z k`. -/
structure Quat where
  w : ℝ
  x : ℝ
  y : ℝ
  z : ℝ

/-- Hamilton product of two quaternions. -/
noncomputable def quat_mul (p q : Quat) : Quat :=
  { w := p.w * q.w - p.x * q.x - p.y * q.y - p.z * q.z
    x := p.w * q.x + p.x * q.w + p.y * q.z - p.z * q.y
    y := p.w * q.y - p.x * q.z + p.y * q.w + p.z * q.x
    z := p.w * q.z + p.x * q.y - p.y * q.x + p.z * q.w }

/-- Quaternion conjugate — the inverse of a unit quaternion. -/
noncomputable def quat_conj (q : Quat) : Quat :=
  { w := q.w, x := -q.x, y := -q.y, z := -q.z }

/-- Modelled from the spec: the rotation-vector-to-quaternion conversion of the
repository's `quaternions` module (imported as `qwts` on calibrate.py line 11;
the module itself is not under `src/`): unit axis times half-angle sine, with
cosine of the half angle as scalar part; the zero rotation maps to the identity
quaternion. -/
noncomputable def quat_from_rvec (r : V3R) : Quat :=
  let angle := Real.sqrt (r 0 ^ 2 + r 1 ^ 2 + r 2 ^ 2)
  if angle = 0 then { w := 1, x := 0, y := 0, z := 0 }
  else
    { w := Real.cos (angle / 2)
      x := Real.sin (angle / 2) / angle * r 0
      y := Real.sin (angle / 2) / angle * r 1
      z := Real.sin (angle / 2) / angle * r 2 }

/-- Modelled from the spec: the quaternion-to-rotation-vector conversion of the
repository's `quaternions` module (not under `src/`), per §4.5: extract axis and
angle, with the degenerate near-zero rotation returning the fixed zero rotation
vector rather than normalizing a near-zero axis. -/
noncomputable def rvec_from_quat (q : Quat) : V3R :=
  let n := Real.sqrt (q.x ^ 2 + q.y ^ 2 + q.z ^ 2)
  if n = 0 then 0
  else (2 * Real.arccos q.w / n) • ![q.x, q.y, q.z]

/-- Modelled from the spec: `qwts.delta_rvec` (the `quaternions` module is not
under `src/`), §4.5: the rotation delta from the previous to the current
rotation, computed via quaternion composition `inverse(q_prev) * q_current` and
converted back to axis-angle. -/
noncomputable def delta_rvec (r_cur r_prev : V3R) : V3R :=
  rvec_from_quat (quat_mul (quat_conj (quat_from_rvec r_prev)) (quat_from_rvec r_cur))

/-- Embeds the relative-pose computation of calibrate.py lines 160-162 over the
reals: `rvec_rel = -qwts.delta_rvec(-rvec, -rvec_prev); tvec_rel = tvec - tvec_prev`,
where `(rvec, tvec)` is the current world-frame pose and
`(rvec_prev, tvec_prev)` the committed keyframe pose. -/
noncomputable def rel_pose (rvec tvec rvec_prev tvec_prev : V3R) : V3R × V3R :=
  (-(delta_rvec (-rvec) (-rvec_prev)), tvec - tvec_prev)

/-- Composing the conjugate of a quaternion with the quaternion itself cancels
the vector part exactly. -/
theorem quat_conj_mul_self_vec (q : Quat) :
    (quat_mul (quat_conj q) q).x = 0 ∧
    (quat_mul (quat_conj q) q).y = 0 ∧
    (quat_mul (quat_conj q) q).z = 0 := by
  refine ⟨?_, ?_, ?_⟩ <;> simp [quat_mul, quat_conj] <;> ring

/-- The delta of a rotation with itself is the zero rotation vector. -/
theorem delta_rvec_self (r : V3R) : delta_rvec r r = 0 := by
  obtain ⟨hx, hy, hz⟩ := quat_conj_mul_self_vec (quat_from_rvec r)
  rw [delta_rvec, rvec_from_quat]
  simp [hx, hy, hz]

/-- C4: after committing a pose as the keyframe, updating with the same pose
yields the identity rotation delta (zero axis-angle vector) and zero translation
delta; in general the translation delta is the world-frame difference
`current translation - previous translation`. -/
theorem commit_update_same_pose (rvec tvec rvec2 tvec2 : V3R) :
    rel_pose rvec tvec rvec tvec = (0, 0) ∧
    (rel_pose rvec tvec rvec2 tvec2).2 = tvec - tvec2 := by
  refine ⟨?_, rfl⟩
  rw [rel_pose, delta_rvec_self]
  simp
